import Mathlib

/-!
Verification of the column-construction layer of `polars-core`
(`src/polars/polars-core/src/chunked_array/upstream_traits.rs`): the
`FromIterator` / `FromParallelIterator` implementations that turn sequences of
optional values into `ChunkedArray`s, and the nested (`ListChunked`) collection
paths.

The embedding is shallow: iterators are lists paired with a declared size hint,
physical arrays are their logical content (a list of optional values), panics
are explicit outcomes, and the `cfg(feature = "performant")` toggle is a `Bool`
parameter of the build function.
-/

set_option autoImplicit false

namespace PolarsCore

variable {α : Type}

/-- A physical primitive array with validity, identified with its logical
content: position `i` holds `none` when the slot is null, `some v` otherwise.
Modelled from the spec: the physical builders are external collaborators whose
observable behaviour is exactly the sequence of (optionally missing) values
they were fed. -/
structure PrimitiveArray (α : Type) where
  values : List (Option α)
deriving DecidableEq

/-- Number of slots of the physical array. -/
def PrimitiveArray.len (arr : PrimitiveArray α) : Nat :=
  arr.values.length

/-- `PrimitiveArray::from_trusted_len_iter`: consumes the whole iterator into a
fresh array, trusting the declared length only for allocation, so the realized
length is the number of items actually yielded. -/
def PrimitiveArray.from_trusted_len_iter (items : List (Option α)) : PrimitiveArray α :=
  ⟨items⟩

/-- `PrimitiveArray::from_iter`: the safe incremental build, appending each
item in turn. -/
def PrimitiveArray.from_iter (items : List (Option α)) : PrimitiveArray α :=
  ⟨items⟩

/-- An iterator: the elements it will yield, plus the `size_hint` it reports
as `(lower, upper)`. A lying iterator may report a hint unrelated to
`elems.length`. -/
structure Iter (α : Type) where
  elems : List α
  size_hint : Nat × Option Nat
deriving DecidableEq

/-- An honest iterator over a concrete sequence: its size hint is exact, with
lower and upper bound both equal to the true length. -/
def Iter.ofList (l : List α) : Iter α :=
  ⟨l, (l.length, some l.length)⟩

/-- `polars_arrow::utils::TrustMyLength`. Modelled from the spec: the explicit
"trust this length" adapter wrapping an iterator and reporting the declared
exact count as its size hint. -/
def TrustMyLength.new (items : List α) (len : Nat) : Iter α :=
  ⟨items, (len, some len)⟩

/-- The chunked column: a name, the physical chunks, and the cached per-chunk
length index. Modelled from the spec: `chunk_id` is the length-index cache that
must stay consistent with `chunks`. (The `field`/dtype and categorical
metadata play no role in the construction paths verified here.) -/
structure ChunkedArray (α : Type) where
  name : String
  chunks : List (PrimitiveArray α)
  chunk_id : List Nat
deriving DecidableEq

/-- `ChunkedArray::new_from_chunks`. Modelled from the spec: wraps the given
chunks under the given name and recomputes the length-index cache from the
chunk sequence. -/
def ChunkedArray.new_from_chunks (name : String) (chunks : List (PrimitiveArray α)) :
    ChunkedArray α :=
  { name := name, chunks := chunks, chunk_id := chunks.map PrimitiveArray.len }

/-- Total logical length: the sum of the chunk lengths. -/
def ChunkedArray.len (ca : ChunkedArray α) : Nat :=
  (ca.chunks.map PrimitiveArray.len).sum

/-- `From<&ChunkedArray<T>> for Vec<Option<T::Native>>` (lines 336-343), which
is `ca.into_iter().collect()`. Modelled from the spec: iteration over a chunked
array yields every element of every chunk, chunk by chunk, in logical order. -/
def ChunkedArray.to_vec (ca : ChunkedArray α) : List (Option α) :=
  (ca.chunks.map PrimitiveArray.values).flatten

/-- The `NoNull` wrapper: a zero-cost marker for "no missing values", needed
only for specialization. -/
structure NoNull (β : Type) where
  arr : β
deriving DecidableEq

/-- `NoNull::new`. -/
def NoNull.new {β : Type} (x : β) : NoNull β :=
  ⟨x⟩

/-- Diagnostic of the `assert_eq!(arr.len(), a)` failure on the fast path:
the realized length (left operand) versus the declared bound (right operand). -/
structure AssertNeq where
  left : Nat
  right : Nat
deriving DecidableEq

/-- `FromIterator<Option<T::Native>> for ChunkedArray<T>` (lines 30-61).
`performant` is the `cfg(feature = "performant")` build toggle. When the size
hint has equal lower and upper bounds and the feature is on, the array is built
by `from_trusted_len_iter` and the realized length is asserted to equal the
bound (an `AssertNeq` error models the assertion panic); otherwise the safe
`PrimitiveArray::from_iter` path runs. -/
def ChunkedArray.from_iter (performant : Bool) (it : Iter (Option α)) :
    Except AssertNeq (ChunkedArray α) :=
  match it.size_hint with
  | (a, some b) =>
    if a = b then
      if performant then
        let arr := PrimitiveArray.from_trusted_len_iter it.elems
        if arr.len = a then
          Except.ok (ChunkedArray.new_from_chunks "" [arr])
        else
          Except.error ⟨arr.len, a⟩
      else
        Except.ok (ChunkedArray.new_from_chunks "" [PrimitiveArray.from_iter it.elems])
    else
      Except.ok (ChunkedArray.new_from_chunks "" [PrimitiveArray.from_iter it.elems])
  | (_, none) =>
      Except.ok (ChunkedArray.new_from_chunks "" [PrimitiveArray.from_iter it.elems])

/-- `AlignedVec::with_capacity_aligned`: an empty growable buffer (capacity is
advisory only). -/
def AlignedVec.with_capacity_aligned (_capacity : Nat) : List α :=
  []

/-- `ChunkedArray::new_from_aligned_vec`. Modelled from the spec: a buffer of
plain (never missing) values becomes a single chunk in which every slot is
present. -/
def ChunkedArray.new_from_aligned_vec (name : String) (av : List α) : ChunkedArray α :=
  ChunkedArray.new_from_chunks name [⟨av.map some⟩]

/-- `FromIterator<T::Native> for NoNull<ChunkedArray<T>>` (lines 64-77):
extend an aligned vec with the iterator, then wrap as a single-chunk array. -/
def NoNull.from_iter (items : List α) : NoNull (ChunkedArray α) :=
  let av := AlignedVec.with_capacity_aligned 0 ++ items
  NoNull.new (ChunkedArray.new_from_aligned_vec "" av)

/-! ### Parallel collection (lines 206-267)

A parallel iterator is modelled as its partitioning: a list of contiguous
groups whose concatenation is the original sequence. Rayon's fold runs
`vec_push` over each group, producing one `Vec` per group, in group order. -/

/-- `vec_push` (lines 208-211). -/
def vec_push (vec : List α) (elem : α) : List α :=
  vec ++ [elem]

/-- `as_list` (lines 213-217): a one-element linked list. -/
def as_list (item : α) : List α :=
  [item]

/-- `list_append` (lines 219-222): `list1.append(&mut list2)`. -/
def list_append (list1 list2 : List α) : List α :=
  list1 ++ list2

/-- `collect_into_linked_list` (lines 224-233): fold every partition into a
`Vec` with `vec_push`, wrap each as a singleton `LinkedList`, and reduce with
`list_append` (identity `LinkedList::new`). -/
def collect_into_linked_list (partitions : List (List α)) : List (List α) :=
  (((partitions.map (fun p => p.foldl vec_push [])).map as_list).foldl list_append [])

/-- `get_capacity_from_par_results` (lines 235-237): one pass over the
top-level structure summing the partition lengths. -/
def get_capacity_from_par_results (ll : List (List α)) : Nat :=
  (ll.map List.length).sum

/-- `FromParallelIterator<Option<T::Native>> for ChunkedArray<T>`
(lines 254-267): collect partitions into a linked list of vecs, sum lengths,
flatten behind a `TrustMyLength` adapter, build one trusted-length chunk. -/
def ChunkedArray.from_par_iter (partitions : List (List (Option α))) : ChunkedArray α :=
  let vectors := collect_into_linked_list partitions
  let capacity := get_capacity_from_par_results vectors
  let it := TrustMyLength.new vectors.flatten capacity
  let arr := PrimitiveArray.from_trusted_len_iter it.elems
  ChunkedArray.new_from_chunks "" [arr]

/-- `FromParallelIterator<T::Native> for NoNull<ChunkedArray<T>>`
(lines 239-252): same pipeline, with every flattened element wrapped in `Some`
before the trusted-length build. -/
def NoNull.from_par_iter (partitions : List (List α)) : NoNull (ChunkedArray α) :=
  let vectors := collect_into_linked_list partitions
  let capacity := get_capacity_from_par_results vectors
  let it := TrustMyLength.new vectors.flatten capacity
  let arr := PrimitiveArray.from_trusted_len_iter (it.elems.map some)
  NoNull.new (ChunkedArray.new_from_chunks "" [arr])

/-! ### Nested (list) collection (lines 133-204)

Elements of a `ListChunked` are `Series` (sub-columns); the element dtype is
taken from the first non-missing element. Sub-columns are modelled as named
lists of integers (one numeric dtype suffices for every claim about this
layer, since the dtype only selects the inner builder). -/

/-- A sub-column: a named sequence of values. -/
structure Series where
  name : String
  values : List Int
deriving DecidableEq

/-- `Series::dtype`: the element type of the sub-column. All model series are
64-bit integer columns. -/
def Series.dtype (_s : Series) : String :=
  "i64"

/-- `get_iter_capacity`. Modelled from the spec: a size estimate for the
remaining iterator, advisory only (it never affects the logical result). -/
def get_iter_capacity (remaining : List α) : Nat :=
  remaining.length

/-- The incremental list builder: the output name it was created with and the
optional sub-columns appended so far. Modelled from the spec: the builder
collaborator exposes append-present / append-missing / finish, and the name
given to it names the output. -/
structure ListBuilder where
  name : String
  elems : List (Option Series)
deriving DecidableEq

/-- `get_list_builder(dtype, value_capacity, list_capacity, name)`: a fresh
builder; capacities are advisory only. -/
def get_list_builder (_dtype : String) (_value_capacity _list_capacity : Nat)
    (name : String) : ListBuilder :=
  ⟨name, []⟩

/-- `builder.append_series(s)`. -/
def ListBuilder.append_series (b : ListBuilder) (s : Series) : ListBuilder :=
  { b with elems := b.elems ++ [some s] }

/-- `builder.append_null()`. -/
def ListBuilder.append_null (b : ListBuilder) : ListBuilder :=
  { b with elems := b.elems ++ [none] }

/-- `builder.append_opt_series(opt)`. -/
def ListBuilder.append_opt_series (b : ListBuilder) (opt : Option Series) : ListBuilder :=
  { b with elems := b.elems ++ [opt] }

/-- The `while cnt > 0 { builder.append_opt_series(None); cnt -= 1 }` loop of
lines 186-189. -/
def ListBuilder.append_leading_nulls (b : ListBuilder) : Nat → ListBuilder
  | 0 => b
  | cnt + 1 => ListBuilder.append_leading_nulls (b.append_opt_series none) cnt

/-- The outer list column: its name and its optional sub-column elements. -/
structure ListChunked where
  name : String
  elems : List (Option Series)
deriving DecidableEq

/-- `builder.finish()`: the collected column, named after the builder. -/
def ListBuilder.finish (b : ListBuilder) : ListChunked :=
  ⟨b.name, b.elems⟩

/-- The spec's name for the recoverable error of an all-missing nested
source. -/
inductive NestedError
  | elementTypeUndetermined
deriving DecidableEq

/-- Outcome of a nested collection: a column, a process-aborting panic with
its message, or a recoverable typed error. The third constructor is the
spec's vocabulary (`ElementTypeUndetermined`); whether the embedded code ever
produces it is exactly what the error-handling claims ask. -/
inductive NestedOutcome
  | ok (c : ListChunked)
  | panicked (msg : String)
  | err (e : NestedError)
deriving DecidableEq

/-- `FromIterator<Ptr> for ListChunked` (lines 133-152): capacity from the
whole iterator, first element taken with `.unwrap()` (panicking on an empty
source), builder created from its dtype, then every element appended in
order. -/
def ListChunked.from_iter_ser : List Series → NestedOutcome
  | [] => NestedOutcome.panicked "called Option::unwrap on a None value"
  | v :: rest =>
    let capacity := get_iter_capacity (v :: rest)
    let builder := get_list_builder v.dtype (capacity * 5) capacity "collected"
    let builder := builder.append_series v
    let builder := rest.foldl (fun b s => b.append_series s) builder
    NestedOutcome.ok builder.finish

/-- The loop of lines 163-180 fused with the build of lines 181-203: scan for
the first present element counting the missing ones; if the source ends first,
panic; otherwise build with the counted leading nulls, the first present
element, and the remainder in order. -/
def ListChunked.from_iter_opt_loop : Nat → List (Option Series) → NestedOutcome
  | _cnt, [] => NestedOutcome.panicked "Type of Series cannot be determined as they are all null"
  | cnt, none :: rest => ListChunked.from_iter_opt_loop (cnt + 1) rest
  | cnt, some v :: rest =>
    let capacity := get_iter_capacity rest
    let builder := get_list_builder v.dtype (capacity * 5) capacity "collected"
    let builder := builder.append_leading_nulls cnt
    let builder := builder.append_series v
    let builder := rest.foldl
      (fun b opt_s =>
        match opt_s with
        | some s => b.append_series s
        | none => b.append_null) builder
    NestedOutcome.ok builder.finish

/-- `FromIterator<Option<Ptr>> for ListChunked` (lines 154-204). -/
def ListChunked.from_iter_opt (items : List (Option Series)) : NestedOutcome :=
  ListChunked.from_iter_opt_loop 0 items

/-! ### Helper lemmas -/

theorem foldl_vec_push (p : List α) : ∀ acc : List α, p.foldl vec_push acc = acc ++ p := by
  induction p with
  | nil => intro acc; simp
  | cons x xs ih => intro acc; simp [vec_push, ih]

theorem foldl_list_append (ls : List (List α)) :
    ∀ acc : List (List α), (ls.map as_list).foldl list_append acc = acc ++ ls := by
  induction ls with
  | nil => intro acc; simp
  | cons l ls ih => intro acc; simp [as_list, list_append, ih]

/-- The fold-reduce pipeline returns exactly the partitions, in order. -/
theorem collect_into_linked_list_eq (partitions : List (List α)) :
    collect_into_linked_list partitions = partitions := by
  unfold collect_into_linked_list
  rw [show partitions.map (fun p => p.foldl vec_push []) = partitions.map id from
    List.map_congr_left fun p _ => foldl_vec_push p []]
  rw [List.map_id, foldl_list_append, List.nil_append]

/-- Sequential collection of an honest iterator always succeeds and yields one
chunk holding exactly the input sequence, under either build configuration. -/
theorem from_iter_ofList (performant : Bool) (S : List (Option α)) :
    ChunkedArray.from_iter performant (Iter.ofList S) =
      Except.ok (ChunkedArray.new_from_chunks "" [⟨S⟩]) := by
  cases performant <;>
    simp [ChunkedArray.from_iter, Iter.ofList, PrimitiveArray.from_trusted_len_iter,
      PrimitiveArray.from_iter, PrimitiveArray.len]

theorem from_par_iter_eq (partitions : List (List (Option α))) :
    ChunkedArray.from_par_iter partitions =
      ChunkedArray.new_from_chunks "" [⟨partitions.flatten⟩] := by
  simp [ChunkedArray.from_par_iter, collect_into_linked_list_eq, TrustMyLength.new,
    PrimitiveArray.from_trusted_len_iter]

theorem to_vec_single (name : String) (S : List (Option α)) :
    (ChunkedArray.new_from_chunks name [⟨S⟩]).to_vec = S := by
  simp [ChunkedArray.to_vec, ChunkedArray.new_from_chunks]

theorem len_single (name : String) (S : List (Option α)) :
    (ChunkedArray.new_from_chunks name [⟨S⟩]).len = S.length := by
  simp [ChunkedArray.len, ChunkedArray.new_from_chunks, PrimitiveArray.len]

/-- Any successful sequential collection is a fresh single-chunk array named
empty. -/
theorem from_iter_ok_shape {performant : Bool} {it : Iter (Option α)}
    {ca : ChunkedArray α} (h : ChunkedArray.from_iter performant it = Except.ok ca) :
    ∃ arr, ca = ChunkedArray.new_from_chunks "" [arr] := by
  unfold ChunkedArray.from_iter at h
  split at h
  · split_ifs at h
    all_goals try simp only [PrimitiveArray.from_trusted_len_iter, PrimitiveArray.len] at h
    all_goals try split_ifs at h
    all_goals exact ⟨_, (Except.ok.inj h).symm⟩
  · exact ⟨_, (Except.ok.inj h).symm⟩

theorem append_leading_nulls_eq (cnt : Nat) :
    ∀ b : ListBuilder,
      b.append_leading_nulls cnt = ⟨b.name, b.elems ++ List.replicate cnt none⟩ := by
  induction cnt with
  | zero => intro b; simp [ListBuilder.append_leading_nulls]
  | succ n ih =>
    intro b
    simp [ListBuilder.append_leading_nulls, ih, ListBuilder.append_opt_series,
      List.replicate_succ]

theorem foldl_append_opt_eq (rest : List (Option Series)) :
    ∀ b : ListBuilder,
      rest.foldl
        (fun b opt_s =>
          match opt_s with
          | some s => b.append_series s
          | none => b.append_null) b = ⟨b.name, b.elems ++ rest⟩ := by
  induction rest with
  | nil => intro b; simp
  | cons x xs ih =>
    intro b
    cases x with
    | none =>
      rw [List.foldl_cons, ih]
      simp [ListBuilder.append_null]
    | some s =>
      rw [List.foldl_cons, ih]
      simp [ListBuilder.append_series]

theorem foldl_append_ser_eq (rest : List Series) :
    ∀ b : ListBuilder,
      rest.foldl (fun b s => b.append_series s) b = ⟨b.name, b.elems ++ rest.map some⟩ := by
  induction rest with
  | nil => intro b; simp
  | cons x xs ih =>
    intro b
    rw [List.foldl_cons, ih]
    simp [ListBuilder.append_series]

/-- The scan loop, once a present element exists in the remainder, collects
exactly the counted leading nulls followed by the remainder, under the builder
name `collected`. -/
theorem from_iter_opt_loop_ok (items : List (Option Series)) :
    ∀ cnt : Nat, (∃ x ∈ items, x.isSome) →
      ListChunked.from_iter_opt_loop cnt items =
        NestedOutcome.ok ⟨"collected", List.replicate cnt none ++ items⟩ := by
  induction items with
  | nil => intro cnt h; simp at h
  | cons x rest ih =>
    intro cnt h
    cases x with
    | none =>
      have h' : ∃ y ∈ rest, y.isSome := by
        rcases h with ⟨y, hy, hs⟩
        rcases hy with _ | hy
        · simp [Option.isSome] at hs
        · exact ⟨y, by assumption, hs⟩
      rw [ListChunked.from_iter_opt_loop, ih (cnt + 1) h']
      simp [List.replicate_succ']
    | some v =>
      simp only [ListChunked.from_iter_opt_loop]
      rw [append_leading_nulls_eq, foldl_append_opt_eq]
      simp [get_list_builder, ListBuilder.append_series, ListBuilder.finish]

/-- The scan loop over an all-missing source always panics. -/
theorem from_iter_opt_loop_all_none (items : List (Option Series)) :
    ∀ cnt : Nat, (∀ x ∈ items, x.isNone) →
      ListChunked.from_iter_opt_loop cnt items =
        NestedOutcome.panicked "Type of Series cannot be determined as they are all null" := by
  induction items with
  | nil => intro cnt _; rfl
  | cons x rest ih =>
    intro cnt h
    cases x with
    | none => rw [ListChunked.from_iter_opt_loop]; exact ih (cnt + 1) fun y hy => h y (by simp [hy])
    | some v => simpa using h (some v) (by simp)

/-- A successful nested collection is always named by its builder,
`collected`. -/
theorem from_iter_opt_ok_name (items : List (Option Series)) (c : ListChunked)
    (h : ListChunked.from_iter_opt items = NestedOutcome.ok c) : c.name = "collected" := by
  by_cases hp : ∃ x ∈ items, x.isSome
  · rw [ListChunked.from_iter_opt, from_iter_opt_loop_ok items 0 hp] at h
    obtain rfl := NestedOutcome.ok.inj h
    rfl
  · have hall : ∀ x ∈ items, x.isNone := by
      intro x hx
      rcases x with _ | v
      · rfl
      · exact absurd ⟨some v, hx, rfl⟩ hp
    rw [ListChunked.from_iter_opt, from_iter_opt_loop_all_none items 0 hall] at h
    exact NestedOutcome.noConfusion h

/-- A successful non-optional nested collection is also named `collected`. -/
theorem from_iter_ser_ok_name (items : List Series) (c : ListChunked)
    (h : ListChunked.from_iter_ser items = NestedOutcome.ok c) : c.name = "collected" := by
  cases items with
  | nil => exact NestedOutcome.noConfusion h
  | cons v rest =>
    simp only [ListChunked.from_iter_ser] at h
    rw [foldl_append_ser_eq] at h
    obtain rfl := NestedOutcome.ok.inj h
    rfl

/-! ### The claims -/

/-- C1: sequential collection of any finite sequence of optional numeric
values (under either build configuration) succeeds and returns a column whose
logical length is the length of the sequence and whose logical content — the
per-index presence and value — is exactly the input sequence. -/
theorem claim1_sequential_collection_content (performant : Bool) (S : List (Option Int)) :
    ∃ ca : ChunkedArray Int,
      ChunkedArray.from_iter performant (Iter.ofList S) = Except.ok ca ∧
      ca.len = S.length ∧ ca.to_vec = S :=
  ⟨ChunkedArray.new_from_chunks "" [⟨S⟩], from_iter_ofList performant S,
    len_single "" S, to_vec_single "" S⟩

/-- C2: for every partitioning of a sequence into contiguous groups, the
parallel pipeline (per-partition fold into a `Vec`, pairwise reduce by
`LinkedList` append, length summation, flatten, trusted-length build) yields a
column with the length and per-index values of the original sequence, equal to
what sequential collection returns: parallel construction never reorders
elements. -/
theorem claim2_parallel_refines_sequential (performant : Bool)
    (partitions : List (List (Option Int))) :
    (ChunkedArray.from_par_iter partitions).len = partitions.flatten.length ∧
    (ChunkedArray.from_par_iter partitions).to_vec = partitions.flatten ∧
    ChunkedArray.from_iter performant (Iter.ofList partitions.flatten) =
      Except.ok (ChunkedArray.from_par_iter partitions) := by
  rw [from_par_iter_eq, from_iter_ofList]
  exact ⟨len_single "" partitions.flatten, to_vec_single "" partitions.flatten, rfl⟩

/-- C3: whenever an iterator's size hint has equal lower and upper bounds that
are truthful (as for any actual sequence), the length-trusted fast path taken
by the `performant` configuration returns the same column as the safe
incremental fallback path: the toggle never changes the result. -/
theorem claim3_fast_path_equals_fallback (it : Iter (Option Int))
    (h : it.size_hint = (it.elems.length, some it.elems.length)) :
    ChunkedArray.from_iter true it = ChunkedArray.from_iter false it := by
  obtain ⟨elems, hint⟩ := it
  simp only at h
  subst h
  rw [show (⟨elems, (elems.length, some elems.length)⟩ : Iter (Option Int)) =
      Iter.ofList elems from rfl,
    from_iter_ofList, from_iter_ofList]

/-- Witness for C3 at the concrete sequence `[some 1, none]`. -/
theorem claim3_fast_path_equals_fallback_witness :
    ChunkedArray.from_iter true (Iter.ofList [some (1 : Int), none]) =
      ChunkedArray.from_iter false (Iter.ofList [some (1 : Int), none]) :=
  claim3_fast_path_equals_fallback (Iter.ofList [some (1 : Int), none]) rfl

/-- C5: on the length-trusted fast path (equal size-hint bounds, `performant`
configuration), a mismatch between the declared bound and the number of
elements actually realized aborts with an assertion failure carrying the
realized and declared counts; when the bound is truthful, the assertion never
fires and the build succeeds. -/
theorem claim5_fast_path_assertion (it : Iter (Option Int)) (a : Nat)
    (h : it.size_hint = (a, some a)) :
    (it.elems.length ≠ a →
      ChunkedArray.from_iter true it = Except.error ⟨it.elems.length, a⟩) ∧
    (it.elems.length = a →
      ChunkedArray.from_iter true it =
        Except.ok (ChunkedArray.new_from_chunks "" [⟨it.elems⟩])) := by
  obtain ⟨elems, hint⟩ := it
  simp only at h
  subst h
  constructor
  · intro hne
    simp [ChunkedArray.from_iter, PrimitiveArray.from_trusted_len_iter, PrimitiveArray.len, hne]
  · intro heq
    simp [ChunkedArray.from_iter, PrimitiveArray.from_trusted_len_iter, PrimitiveArray.len, heq]

/-- Witness for C5: a lying iterator (one element, declared bound 2) aborts
with the diagnostic `left = 1, right = 2`; the honest singleton succeeds. -/
theorem claim5_fast_path_assertion_witness :
    ChunkedArray.from_iter true (⟨[some (1 : Int)], (2, some 2)⟩ : Iter (Option Int)) =
      Except.error ⟨1, 2⟩ ∧
    ChunkedArray.from_iter true (Iter.ofList [some (1 : Int)]) =
      Except.ok (ChunkedArray.new_from_chunks "" [⟨[some (1 : Int)]⟩]) :=
  ⟨(claim5_fast_path_assertion ⟨[some (1 : Int)], (2, some 2)⟩ 2 rfl).1 (by decide),
    (claim5_fast_path_assertion (Iter.ofList [some (1 : Int)]) 1 rfl).2 rfl⟩

/-- Counterexample to C4: nested collection over the all-missing input
`[none, none]` does not signal the recoverable `ElementTypeUndetermined`
error — it panics (aborting the operation) with the all-null message. -/
theorem claim4_counterexample_all_missing_panics :
    ListChunked.from_iter_opt [none, none] ≠
      NestedOutcome.err NestedError.elementTypeUndetermined ∧
    ListChunked.from_iter_opt [none, none] =
      NestedOutcome.panicked "Type of Series cannot be determined as they are all null" :=
  ⟨by decide, rfl⟩

/-- C4 as amended: nested collection over a sequence of optional sub-columns
in which every element is missing panics with the message
`Type of Series cannot be determined as they are all null`, terminating the
operation, rather than returning a column or a recoverable typed error. -/
theorem claim4_amended_all_missing_panics (items : List (Option Series))
    (h : ∀ x ∈ items, x.isNone) :
    ListChunked.from_iter_opt items =
      NestedOutcome.panicked "Type of Series cannot be determined as they are all null" :=
  from_iter_opt_loop_all_none items 0 h

/-- Witness for the amended C4 at the spec's example `[missing, missing]`. -/
theorem claim4_amended_all_missing_panics_witness :
    ListChunked.from_iter_opt [none, none] =
      NestedOutcome.panicked "Type of Series cannot be determined as they are all null" :=
  claim4_amended_all_missing_panics [none, none] (by decide)

/-- C6: nested collection over a sequence of optional sub-columns with at
least one present element succeeds, preserving length, order and position:
the result has one element per input element, missing exactly where the input
was missing and holding the input sub-column elsewhere (the leading missing
entries are counted, then materialized ahead of the first present element). -/
theorem claim6_nested_collection_preserves_order (items : List (Option Series))
    (h : ∃ x ∈ items, x.isSome) :
    ∃ c : ListChunked,
      ListChunked.from_iter_opt items = NestedOutcome.ok c ∧
      c.elems.length = items.length ∧ c.elems = items := by
  refine ⟨⟨"collected", items⟩, ?_, rfl, rfl⟩
  simpa using from_iter_opt_loop_ok items 0 h

/-- Witness for C6 at the spec's example
`[missing, missing, present([1,2]), missing, present([3])]`: length 5,
indices 0, 1, 3 missing, index 2 equal to `[1,2]`, index 4 equal to `[3]`. -/
theorem claim6_nested_collection_preserves_order_witness :
    ∃ c : ListChunked,
      ListChunked.from_iter_opt
          [none, none, some ⟨"", [1, 2]⟩, none, some ⟨"", [3]⟩] =
        NestedOutcome.ok c ∧
      c.elems.length = ([none, none, some (⟨"", [1, 2]⟩ : Series), none,
        some ⟨"", [3]⟩] : List (Option Series)).length ∧
      c.elems = [none, none, some ⟨"", [1, 2]⟩, none, some ⟨"", [3]⟩] :=
  claim6_nested_collection_preserves_order
    [none, none, some ⟨"", [1, 2]⟩, none, some ⟨"", [3]⟩] (by decide)

/-- Counterexample to C7: the nested collection path does not name its result
with the empty string — collecting the singleton `[Series "a" [1]]` yields a
column named `collected`. -/
theorem claim7_counterexample_nested_name :
    ListChunked.from_iter_ser [⟨"a", [1]⟩] =
      NestedOutcome.ok ⟨"collected", [some ⟨"a", [1]⟩]⟩ ∧
    ("collected" : String) ≠ "" :=
  ⟨rfl, by decide⟩

/-- C7 as amended: the primitive sequential and parallel construction paths
produce single-chunk columns named with the empty string, while both nested
(list) collection paths name their result `collected` (the name passed to the
list builder). -/
theorem claim7_amended_default_names :
    (∀ (performant : Bool) (it : Iter (Option Int)) (ca : ChunkedArray Int),
        ChunkedArray.from_iter performant it = Except.ok ca →
        ca.name = "" ∧ ca.chunks.length = 1) ∧
    (∀ partitions : List (List (Option Int)),
        (ChunkedArray.from_par_iter partitions).name = "" ∧
        (ChunkedArray.from_par_iter partitions).chunks.length = 1) ∧
    (∀ (items : List (Option Series)) (c : ListChunked),
        ListChunked.from_iter_opt items = NestedOutcome.ok c → c.name = "collected") ∧
    (∀ (items : List Series) (c : ListChunked),
        ListChunked.from_iter_ser items = NestedOutcome.ok c → c.name = "collected") := by
  refine ⟨?_, ?_, from_iter_opt_ok_name, from_iter_ser_ok_name⟩
  · intro performant it ca h
    obtain ⟨arr, rfl⟩ := from_iter_ok_shape h
    exact ⟨rfl, rfl⟩
  · intro partitions
    rw [from_par_iter_eq]
    exact ⟨rfl, rfl⟩

/-- Witness for the amended C7: a concrete parallel build is named empty, and
a concrete nested build is named `collected`. -/
theorem claim7_amended_default_names_witness :
    (ChunkedArray.from_par_iter [[some (5 : Int)]]).name = "" ∧
    (⟨"collected", [some ⟨"", [1]⟩]⟩ : ListChunked).name = "collected" :=
  ⟨(claim7_amended_default_names.2.1 [[some (5 : Int)]]).1,
    claim7_amended_default_names.2.2.1 [some ⟨"", [1]⟩]
      ⟨"collected", [some ⟨"", [1]⟩]⟩ rfl⟩

/-- C8: every column freshly constructed by the sequential or parallel
collection paths (optional-value sequential, optional-value parallel,
no-missing sequential, no-missing parallel) has exactly one physical chunk,
its logical length is the sum of its chunk lengths, and its length-index
cache agrees with the chunk sequence. -/
theorem claim8_single_chunk_invariant :
    (∀ (performant : Bool) (it : Iter (Option Int)) (ca : ChunkedArray Int),
        ChunkedArray.from_iter performant it = Except.ok ca →
        ca.chunks.length = 1 ∧
        ca.len = (ca.chunks.map PrimitiveArray.len).sum ∧
        ca.chunk_id = ca.chunks.map PrimitiveArray.len) ∧
    (∀ partitions : List (List (Option Int)),
        (ChunkedArray.from_par_iter partitions).chunks.length = 1 ∧
        (ChunkedArray.from_par_iter partitions).len =
          ((ChunkedArray.from_par_iter partitions).chunks.map PrimitiveArray.len).sum ∧
        (ChunkedArray.from_par_iter partitions).chunk_id =
          (ChunkedArray.from_par_iter partitions).chunks.map PrimitiveArray.len) ∧
    (∀ items : List Int,
        (NoNull.from_iter items).arr.chunks.length = 1 ∧
        (NoNull.from_iter items).arr.len =
          ((NoNull.from_iter items).arr.chunks.map PrimitiveArray.len).sum ∧
        (NoNull.from_iter items).arr.chunk_id =
          (NoNull.from_iter items).arr.chunks.map PrimitiveArray.len) ∧
    (∀ partitions : List (List Int),
        (NoNull.from_par_iter partitions).arr.chunks.length = 1 ∧
        (NoNull.from_par_iter partitions).arr.len =
          ((NoNull.from_par_iter partitions).arr.chunks.map PrimitiveArray.len).sum ∧
        (NoNull.from_par_iter partitions).arr.chunk_id =
          (NoNull.from_par_iter partitions).arr.chunks.map PrimitiveArray.len) := by
  refine ⟨?_, fun partitions => ⟨?_, rfl, rfl⟩, fun items => ⟨rfl, rfl, rfl⟩,
    fun partitions => ⟨rfl, rfl, rfl⟩⟩
  · intro performant it ca h
    obtain ⟨arr, rfl⟩ := from_iter_ok_shape h
    exact ⟨rfl, rfl, rfl⟩
  · rw [from_par_iter_eq]
    rfl

/-- Witness for C8: the invariants at a concrete sequential build of
`[some 1]`. -/
theorem claim8_single_chunk_invariant_witness :
    (ChunkedArray.new_from_chunks "" [⟨[some (1 : Int)]⟩]).chunks.length = 1 ∧
    (ChunkedArray.new_from_chunks "" [⟨[some (1 : Int)]⟩]).len =
      ((ChunkedArray.new_from_chunks "" [⟨[some (1 : Int)]⟩]).chunks.map
        PrimitiveArray.len).sum ∧
    (ChunkedArray.new_from_chunks "" [⟨[some (1 : Int)]⟩]).chunk_id =
      (ChunkedArray.new_from_chunks "" [⟨[some (1 : Int)]⟩]).chunks.map
        PrimitiveArray.len :=
  claim8_single_chunk_invariant.1 true (Iter.ofList [some (1 : Int)])
    (ChunkedArray.new_from_chunks "" [⟨[some (1 : Int)]⟩]) rfl

/-- C9: converting a column built by sequential collection back to a sequence
of optional values and re-collecting that sequence reproduces a column with
identical logical content — in fact the very same column, hence the same
length and per-index presence and values. -/
theorem claim9_round_trip (performant : Bool) (S : List (Option Int))
    (ca : ChunkedArray Int)
    (h : ChunkedArray.from_iter performant (Iter.ofList S) = Except.ok ca) :
    ∃ ca2 : ChunkedArray Int,
      ChunkedArray.from_iter performant (Iter.ofList ca.to_vec) = Except.ok ca2 ∧
      ca2.len = ca.len ∧ ca2.to_vec = ca.to_vec := by
  rw [from_iter_ofList] at h
  obtain rfl := Except.ok.inj h
  rw [to_vec_single]
  exact ⟨_, from_iter_ofList performant S, rfl, to_vec_single "" S⟩

/-- Witness for C9 at the concrete sequence `[some 2, none]`. -/
theorem claim9_round_trip_witness :
    ∃ ca2 : ChunkedArray Int,
      ChunkedArray.from_iter true
          (Iter.ofList (ChunkedArray.new_from_chunks "" [⟨[some (2 : Int), none]⟩]).to_vec) =
        Except.ok ca2 ∧
      ca2.len = (ChunkedArray.new_from_chunks "" [⟨[some (2 : Int), none]⟩]).len ∧
      ca2.to_vec = (ChunkedArray.new_from_chunks "" [⟨[some (2 : Int), none]⟩]).to_vec :=
  claim9_round_trip true [some (2 : Int), none]
    (ChunkedArray.new_from_chunks "" [⟨[some (2 : Int), none]⟩]) rfl

/-- C10: the non-optional nested collection (`FromIterator<Ptr>` over borrowed
`Series`) panics on an empty input sequence — `it.next().unwrap()` aborts
before any column or recoverable error could be produced. -/
theorem claim10_empty_nested_panics :
    ListChunked.from_iter_ser [] =
      NestedOutcome.panicked "called Option::unwrap on a None value" :=
  rfl

end PolarsCore
